import Mathlib

/-!
Verification development for the chain / peer-failover / key-value-store core of a
Hyperledger-style client SDK (lib/Chain.js, lib/FileKeyValueStore.js), as a shallow
embedding in Lean 4.

Conventions of the embedding:
  * JavaScript values that can be `undefined`, `null` or an object are embedded as
    the three-valued type `JSVal`; JavaScript truthiness of such a value is `JSVal.truthy`.
  * Promise-based code is embedded by explicit state passing; a promise settles exactly
    once, so an executor that calls `reject` and then keeps running contributes its later
    side effects to the state while only the first settlement decides the result.
  * Network behaviour of a liveness probe is parameterised by a function
    `alive : Peer → Bool` telling which peers accept a raw socket connection.
  * Member.js is not part of the sources under verification; the few member operations
    the chain calls are modelled from the specification and are marked as such.
-/

namespace FabricSdk

/-- Three-valued embedding of a JavaScript field that can hold `undefined`, `null`
or a proper value. -/
inductive JSVal (α : Type) where
  | undef : JSVal α
  | null : JSVal α
  | val : α → JSVal α
deriving DecidableEq, Repr

/-- JavaScript truthiness for an object-typed field: `undefined` and `null` are falsy,
any object is truthy. -/
def JSVal.truthy {α : Type} : JSVal α → Bool
  | JSVal.val _ => true
  | _ => false

/-- A peer endpoint as the chain sees it (spec section 3): a grpc url and optional TLS
certificate material. The Peer object's non-owning back-reference to its chain plays no
role in any verified operation and is omitted. -/
structure Peer where
  url : String
  pem : String
deriving DecidableEq, Repr

/-- The terminal signal delivered to the event emitter by a dispatch: either an
emitted error message or the transaction forwarded to one peer. -/
inductive DispatchSignal where
  | error : String → DispatchSignal
  | sent : Peer → DispatchSignal
deriving DecidableEq, Repr

/-- The inner `trySendTransaction(pidx)` loop of Chain.js sendTransaction
(Chain.js lines 420-445), embedded over the captured `peers` array. Components of the
result: the terminal signal, the value of the chain's peer list after the call, and the
list of indices at which a probe connection was attempted, in order. The source rotates
only when `pidx > 0 && peers === this._peers`; in this sequential embedding no concurrent
configuration change replaces the list during the loop, so the identity check holds and
the rotation is guarded by `0 < pidx` alone. -/
def trySendTransaction (alive : Peer → Bool) (peers : List Peer) (pidx : Nat) :
    DispatchSignal × List Peer × List Nat :=
  if h : peers.length ≤ pidx then
    (DispatchSignal.error ("None of " ++ toString peers.length ++ " peers reponding"),
     peers, [])
  else
    let p := peers.get ⟨pidx, Nat.lt_of_not_le h⟩
    if alive p then
      (DispatchSignal.sent p,
       if 0 < pidx then peers.drop pidx ++ peers.take pidx else peers,
       [pidx])
    else
      let r := trySendTransaction alive peers (pidx + 1)
      (r.1, r.2.1, pidx :: r.2.2)
termination_by peers.length - pidx
decreasing_by omega

/-- Chain.js sendTransaction (lines 413-448): an empty peer list emits the
no-peers error immediately (no probe happens); otherwise the failover loop starts at
index 0. `name` is the chain's `_name`, used in the no-peers message. -/
def sendTransaction (alive : Peer → Bool) (name : String) (peers : List Peer) :
    DispatchSignal × List Peer × List Nat :=
  if peers.length = 0 then
    (DispatchSignal.error ("chain " ++ name ++ " has no peers"), peers, [])
  else
    trySendTransaction alive peers 0

/-- Lifecycle state of a member identity (spec section 4.2): Unregistered, Registered
with a one-time secret, or Enrolled. -/
inductive MemberState where
  | unregistered : MemberState
  | registered : String → MemberState
  | enrolled : MemberState
deriving DecidableEq, Repr

/-- Modelled from the spec: the key-value store as the chain's member code uses it.
The persisted blob is opaque (spec section 3) and deserializes into whichever lifecycle
state it encodes, so the store is modelled as an association list from identity name
directly to the persisted lifecycle state. -/
def Store := List (String × MemberState)
deriving DecidableEq

/-- The member-services authority object held in `_memberServices`. Only its presence or
absence matters to the chain operations verified here; it is identified by the url/pem
it was constructed from (Chain.js setMemberServicesUrl). -/
structure MemberServices where
  url : String
  pem : String
deriving DecidableEq, Repr

/-- Modelled from the spec (section 6): the behaviour of the remote identity authority
behind member services. `register` maps an enrollment ID to a one-time secret or a
failure (e.g. a permission failure without a privileged registrar); `enroll` validates
an enrollment ID and secret. -/
structure Authority where
  register : String → Except String String
  enroll : String → String → Except String Unit

/-- A member identity as cached by the chain. `id` is an allocation tag: each
`new Member(...)` construction yields a fresh tag, so two members are the same
in-memory instance exactly when their tags agree. Modelled from the spec
(Member.js is not among the sources): name plus lifecycle state. -/
structure Member where
  name : String
  state : MemberState
  id : Nat
deriving DecidableEq, Repr

/-- Modelled from the spec: `Member.isEnrolled` — the identity is in state Enrolled. -/
def Member.isEnrolled (m : Member) : Bool :=
  m.state = MemberState.enrolled

/-- Modelled from the spec: `Member.restoreState` (Member.js is not among the sources).
Spec sections 4.1 and 4.2: construction attempts to load the persisted blob from the
persistent store under the member's name; not-found yields a fresh unregistered identity
and is not an error; with no store object set, the read cannot even start and the
restore fails. -/
def Member.restoreState (m : Member) (store : JSVal Store) : Except String Member :=
  match store with
  | JSVal.val s =>
    match s.lookup m.name with
    | none => Except.ok m
    | some st => Except.ok { m with state := st }
  | _ => Except.error "TypeError: cannot read the key value store"

/-- Modelled from the spec: `Member.register` forwards the registration request to the
authority through member services and completes asynchronously — every authority call is
a network call at which execution suspends (spec section 5), so its outcome is delivered
through the promise it returns, never thrown synchronously into the caller. -/
def Member.register (m : Member) (auth : Authority) : Except String String :=
  auth.register m.name

/-- Modelled from the spec: `Member.registerAndEnroll` performs registration then
enrollment against the authority as one unit (spec section 4.1); failure of either
sub-step fails the whole operation, success leaves the member Enrolled. -/
def Member.registerAndEnroll (m : Member) (auth : Authority) : Except String Member :=
  match auth.register m.name with
  | Except.error e => Except.error e
  | Except.ok secret =>
    match auth.enroll m.name secret with
    | Except.error e => Except.error e
    | Except.ok _ => Except.ok { m with state := MemberState.enrolled }

/-- The registration request passed to Chain.register / Chain.registerAndEnroll; it
carries at minimum the enrollment ID (spec section 4.1); further attributes are consumed
opaquely by the authority and are omitted. -/
structure RegistrationRequest where
  enrollmentID : String
deriving DecidableEq, Repr

/-- The per-instance state of one chain, with the fields the verified operations touch:
`_name`, the member cache `_members` (a JavaScript object, i.e. a map holding at most one
value per key), `_memberServices` and `_keyValStore` (both with prototype default `null`,
Chain.js lines 42-46). `nextMemberId` is the allocation counter backing `Member.id`.
The peer list is modelled separately (`ChainWorld`) because it lives on the shared
prototype, and the remaining configuration knobs (tcert batch size, prefetch/dev mode,
wait times, registrar) play no part in the verified claims. -/
structure Chain where
  name : String
  members : String → Option Member
  memberServices : JSVal MemberServices
  keyValStore : JSVal Store
  nextMemberId : Nat

/-- The constructor (Chain.js lines 66-69): it assigns the name and a fresh member
cache on the instance; every other field keeps its prototype default, in particular
`_memberServices: null` and `_keyValStore: null`. -/
def mkChain (name : String) : Chain :=
  { name := name
    members := fun _ => none
    memberServices := JSVal.null
    keyValStore := JSVal.null
    nextMemberId := 0 }

/-- Chain.js setKeyValueStore (lines 226-228). -/
def Chain.setKeyValueStore (c : Chain) (kvs : Store) : Chain :=
  { c with keyValStore := JSVal.val kvs }

/-- Chain.js setMemberServices (lines 138-143); the crypto-suite adoption it also
performs touches only `cryptoPrimitives`, which no verified operation reads. -/
def Chain.setMemberServices (c : Chain) (ms : MemberServices) : Chain :=
  { c with memberServices := JSVal.val ms }

/-- Chain.js isSecurityEnabled (lines 148-150): literally
`this._memberServices !== undefined`. -/
def Chain.isSecurityEnabled (c : Chain) : Bool :=
  match c.memberServices with
  | JSVal.undef => false
  | _ => true

/-- Chain.js \_getMemberHelper (lines 292-317): cache hit resolves the cached member;
otherwise a new Member is constructed (fresh allocation tag), its state is restored from
the key-value store, and only on a successful restore is it inserted into the cache and
resolved; a failed restore rejects. -/
def Chain.getMemberHelper (c : Chain) (name : String) : Except String Member × Chain :=
  match c.members name with
  | some member => (Except.ok member, c)
  | none =>
    let member : Member := { name := name, state := MemberState.unregistered, id := c.nextMemberId }
    let c1 : Chain := { c with nextMemberId := c.nextMemberId + 1 }
    match Member.restoreState member c.keyValStore with
    | Except.ok restored =>
      (Except.ok restored,
       { c1 with members := fun n => if n = name then some restored else c1.members n })
    | Except.error e => (Except.error e, c1)

/-- Chain.js getMember (lines 249-274). The executor rejects when the key-value store or
the member services is unset, but neither rejection is followed by a return:
`_getMemberHelper` is invoked regardless, so its side effects (member construction, store
read, cache insertion) happen even on a configuration failure; only the first settlement
decides the promise's outcome. -/
def Chain.getMember (c : Chain) (name : String) : Except String Member × Chain :=
  let helper := Chain.getMemberHelper c name
  let settled : Except String Member :=
    if JSVal.truthy c.keyValStore = false then
      Except.error "No key value store was found.  You must first call Chain.configureKeyValueStore or Chain.setKeyValueStore"
    else if JSVal.truthy c.memberServices = false then
      Except.error "No member services was found.  You must first call Chain.configureMemberServices or Chain.setMemberServices"
    else helper.1
  (settled, helper.2)

/-- Chain.js register (lines 324-341): resolves the member, then invokes
`member.register(registrationRequest)` WITHOUT chaining the promise it returns —
`resolve(true)` runs immediately afterwards, and an asynchronous rejection from the
registration is dropped. The third component records that dropped deferred outcome. -/
def Chain.register (c : Chain) (auth : Authority) (req : RegistrationRequest) :
    Except String Bool × Chain × Option (Except String String) :=
  let r := Chain.getMember c req.enrollmentID
  match r.1 with
  | Except.error e => (Except.error e, r.2, none)
  | Except.ok member => (Except.ok true, r.2, some (Member.register member auth))

/-- Chain.js registerAndEnroll (lines 380-406): resolves the member; when it is already
enrolled, resolves it immediately; otherwise runs the member's registerAndEnroll (which
performs the authority calls) and resolves the member on success. The third component
records whether the authority was invoked at all. On success the cache entry reflects
the member's in-place state mutation. -/
def Chain.registerAndEnroll (c : Chain) (auth : Authority) (req : RegistrationRequest) :
    Except String Member × Chain × Bool :=
  let r := Chain.getMember c req.enrollmentID
  match r.1 with
  | Except.error e => (Except.error e, r.2, false)
  | Except.ok member =>
    if Member.isEnrolled member then
      (Except.ok member, r.2, false)
    else
      match Member.registerAndEnroll member auth with
      | Except.ok m2 =>
        (Except.ok m2,
         { r.2 with members := fun n => if n = req.enrollmentID then some m2 else (r.2).members n },
         true)
      | Except.error e => (Except.error e, r.2, true)

/-- One constructed chain instance, as the JavaScript object model sees it. The module
defines the class as `api.Chain.extend({...})`: the object literal's fields become
properties of one shared prototype, and `new Chain(name)` runs a constructor that
assigns only `_name` and `_members` on the instance (Chain.js lines 66-69) — which is why
the constructor must re-create `_members` at all. `_peers` is never assigned by the
constructor, so reads of `this._peers` resolve to the single array object allocated for
the prototype default `_peers: []` (Chain.js line 27) until some assignment
(`this._peers = ...`, as in sendTransaction's rotation) creates an own property.
`ownPeers = none` means the instance still inherits the prototype's array. -/
structure ChainObj where
  name : String
  ownPeers : Option (List Peer)
deriving DecidableEq, Repr

/-- The process-wide picture needed to talk about several chain instances at once: the
prototype's one `_peers` array, and the instances constructed so far (addressed by
construction index). -/
structure ChainWorld where
  protoPeers : List Peer
  chains : List ChainObj
deriving DecidableEq, Repr

/-- The world before any chain is constructed: the prototype's `_peers` default is the
empty array (Chain.js line 27). -/
def initialWorld : ChainWorld :=
  { protoPeers := [], chains := [] }

/-- `new Chain(name)` (Chain.js lines 66-69): the new instance gets its own `_name` and
`_members`, but no own `_peers` property. -/
def ChainWorld.newChain (w : ChainWorld) (name : String) : ChainWorld :=
  { w with chains := w.chains ++ [{ name := name, ownPeers := none }] }

/-- Chain.js getPeers (lines 97-99) on the instance with construction index `i`: the
property read `this._peers` resolves to the instance's own array when it has one, and to
the prototype's shared array otherwise. -/
def ChainWorld.getPeers (w : ChainWorld) (i : Nat) : List Peer :=
  match w.chains.get? i with
  | none => []
  | some c =>
    match c.ownPeers with
    | none => w.protoPeers
    | some l => l

/-- Chain.js addPeer (lines 87-91) on the instance with construction index `i`:
`this._peers.push(peer)` reads `_peers` — resolving to the prototype's array when the
instance has no own property — and pushes onto that very array in place. -/
def ChainWorld.addPeer (w : ChainWorld) (i : Nat) (url pem : String) : ChainWorld :=
  let peer : Peer := { url := url, pem := pem }
  match w.chains.get? i with
  | none => w
  | some c =>
    match c.ownPeers with
    | none => { w with protoPeers := w.protoPeers ++ [peer] }
    | some l => { w with chains := w.chains.set i { c with ownPeers := some (l ++ [peer]) } }

/-- The file system visible to FileKeyValueStore: an association list from path to file
contents. Reading a missing path fails with the ENOENT error code; I/O faults other
than a missing file are outside this functional model, so the rejection channels of
getValue and setValue stay unused here. -/
def FileSystem := List (String × String)
deriving DecidableEq

/-- path.join of the store's root directory and a key name
(FileKeyValueStore.js lines 24 and 48). -/
def pathJoin (dir name : String) : String :=
  dir ++ "/" ++ name

/-- The file-per-key store (FileKeyValueStore.js): it holds its root directory. -/
structure FileKeyValueStore where
  dir : String
deriving DecidableEq, Repr

/-- FileKeyValueStore.js getValue (lines 20-37): read the file at dir/name; an ENOENT
read error resolves to null (not-found is not an error), any other read error rejects
(none arises in this functional model), otherwise the promise resolves to the data. -/
def FileKeyValueStore.getValue (s : FileKeyValueStore) (fs : FileSystem) (name : String) :
    Except String (Option String) :=
  match List.lookup (pathJoin s.dir name) fs with
  | none => Except.ok none
  | some data => Except.ok (some data)

/-- Write or overwrite one path in the file system, as fs.writeFile does. -/
def FileSystem.write (fs : FileSystem) (p v : String) : FileSystem :=
  match fs with
  | [] => [(p, v)]
  | (q, w) :: rest => if q = p then (p, v) :: rest else (q, w) :: FileSystem.write rest p v

/-- FileKeyValueStore.js setValue (lines 44-57): write the file at dir/name and resolve
true; a write error rejects (none arises in this functional model). -/
def FileKeyValueStore.setValue (s : FileKeyValueStore) (fs : FileSystem) (name value : String) :
    Except String Bool × FileSystem :=
  (Except.ok true, FileSystem.write fs (pathJoin s.dir name) value)

/-- Concrete peer used by witnesses: P0. -/
def peerA : Peer := { url := "grpc://a:7051", pem := "" }

/-- Concrete peer used by witnesses: P1. -/
def peerB : Peer := { url := "grpc://b:7051", pem := "" }

/-- Concrete peer used by witnesses: P2. -/
def peerC : Peer := { url := "grpc://c:7051", pem := "" }

/-- A probe behaviour under which only `peerB` accepts the connection. -/
def aliveOnlyB : Peer → Bool := fun p => p.url == "grpc://b:7051"

/-- Concrete member services object used by witnesses. -/
def msW : MemberServices := { url := "grpc://localhost:7054", pem := "" }

/-- A fully configured chain (store and member services set, empty cache), as the test
fixtures build one. -/
def chainConfigured : Chain :=
  Chain.setMemberServices (Chain.setKeyValueStore (mkChain "testChain") []) msW

/-- A member already in state Enrolled, cached under the name alice. -/
def enrolledAlice : Member :=
  { name := "alice", state := MemberState.enrolled, id := 0 }

/-- A configured chain whose cache already holds the enrolled alice. -/
def chainWithEnrolledAlice : Chain :=
  { chainConfigured with members := fun n => if n = "alice" then some enrolledAlice else none }

/-- An authority that denies every registration (no privileged registrar) and accepts
every enrollment. -/
def authDeny : Authority :=
  { register := fun _ => Except.error "PermissionError: registrar precondition failed"
    enroll := fun _ _ => Except.ok () }

/-!
Theorems. Helper lemmas about the failover loop come first; each claim then gets one
theorem (with a witness where the theorem carries hypotheses).
-/

/-- Failover loop, exhausted case: once the attempt index reaches the end of the list,
the loop emits the none-responding error, touches no peer, and leaves the list alone. -/
theorem trySendTransaction_exhausted (alive : Peer → Bool) (peers : List Peer) (pidx : Nat)
    (h : peers.length ≤ pidx) :
    trySendTransaction alive peers pidx =
      (DispatchSignal.error ("None of " ++ toString peers.length ++ " peers reponding"),
       peers, []) := by
  rw [trySendTransaction]
  simp [h]

/-- Failover loop, dead-peer step: a failed probe at the current index destroys the
socket and moves to the next index. -/
theorem trySendTransaction_dead_step (alive : Peer → Bool) (peers : List Peer) (pidx : Nat)
    (h : pidx < peers.length) (ha : alive (peers.get ⟨pidx, h⟩) = false) :
    trySendTransaction alive peers pidx =
      ((trySendTransaction alive peers (pidx + 1)).1,
       (trySendTransaction alive peers (pidx + 1)).2.1,
       pidx :: (trySendTransaction alive peers (pidx + 1)).2.2) := by
  rw [trySendTransaction]
  rw [List.get_eq_getElem] at ha
  simp [Nat.not_le.mpr h, ha]

/-- Failover loop, live-peer step: a successful probe at the current index forwards the
transaction to that peer and rotates the list when the index is positive. -/
theorem trySendTransaction_alive_step (alive : Peer → Bool) (peers : List Peer) (pidx : Nat)
    (h : pidx < peers.length) (ha : alive (peers.get ⟨pidx, h⟩) = true) :
    trySendTransaction alive peers pidx =
      (DispatchSignal.sent (peers.get ⟨pidx, h⟩),
       if 0 < pidx then peers.drop pidx ++ peers.take pidx else peers,
       [pidx]) := by
  rw [trySendTransaction]
  rw [List.get_eq_getElem] at ha
  simp [Nat.not_le.mpr h, ha]

/-- Failover loop: when every peer from the current index on refuses the probe, the loop
probes each of them once in order and ends in the none-responding error with the list
unchanged. -/
theorem trySendTransaction_all_dead (alive : Peer → Bool) (peers : List Peer) :
    ∀ pidx, (∀ j (hj : j < peers.length), pidx ≤ j → alive (peers.get ⟨j, hj⟩) = false) →
    trySendTransaction alive peers pidx =
      (DispatchSignal.error ("None of " ++ toString peers.length ++ " peers reponding"),
       peers, List.range' pidx (peers.length - pidx)) := by
  suffices h : ∀ k pidx, peers.length - pidx = k →
      (∀ j (hj : j < peers.length), pidx ≤ j → alive (peers.get ⟨j, hj⟩) = false) →
      trySendTransaction alive peers pidx =
        (DispatchSignal.error ("None of " ++ toString peers.length ++ " peers reponding"),
         peers, List.range' pidx (peers.length - pidx)) by
    exact fun pidx hd => h _ pidx rfl hd
  intro k
  induction k with
  | zero =>
    intro pidx hk hdead
    have hle : peers.length ≤ pidx := by omega
    rw [trySendTransaction_exhausted alive peers pidx hle]
    have hz : peers.length - pidx = 0 := by omega
    rw [hz]
    rfl
  | succ k ih =>
    intro pidx hk hdead
    have hlt : pidx < peers.length := by omega
    rw [trySendTransaction_dead_step alive peers pidx hlt (hdead pidx hlt (Nat.le_refl pidx))]
    rw [ih (pidx + 1) (by omega) (fun j hj hge => hdead j hj (by omega))]
    have h1 : peers.length - pidx = (peers.length - (pidx + 1)) + 1 := by omega
    rw [h1, List.range'_succ]

/-- Failover loop: when the peer at index `i` is the first from the current index on to
accept the probe, the loop probes indices `pidx` through `i` once each, forwards to that
peer and rotates the list exactly when `i` is positive. -/
theorem trySendTransaction_first_alive (alive : Peer → Bool) (peers : List Peer) (i : Nat)
    (hi : i < peers.length) (halive : alive (peers.get ⟨i, hi⟩) = true) :
    ∀ pidx, pidx ≤ i →
    (∀ j (hj : j < peers.length), pidx ≤ j → j < i → alive (peers.get ⟨j, hj⟩) = false) →
    trySendTransaction alive peers pidx =
      (DispatchSignal.sent (peers.get ⟨i, hi⟩),
       if 0 < i then peers.drop i ++ peers.take i else peers,
       List.range' pidx (i + 1 - pidx)) := by
  suffices h : ∀ k pidx, i - pidx = k → pidx ≤ i →
      (∀ j (hj : j < peers.length), pidx ≤ j → j < i → alive (peers.get ⟨j, hj⟩) = false) →
      trySendTransaction alive peers pidx =
        (DispatchSignal.sent (peers.get ⟨i, hi⟩),
         if 0 < i then peers.drop i ++ peers.take i else peers,
         List.range' pidx (i + 1 - pidx)) by
    exact fun pidx hle hd => h _ pidx rfl hle hd
  intro k
  induction k with
  | zero =>
    intro pidx hk hle hdead
    have heq : pidx = i := by omega
    subst heq
    rw [trySendTransaction_alive_step alive peers pidx hi halive]
    have h1 : pidx + 1 - pidx = 1 := by omega
    rw [h1, List.range'_one]
  | succ k ih =>
    intro pidx hk hle hdead
    have hlt : pidx < i := by omega
    have hplt : pidx < peers.length := by omega
    rw [trySendTransaction_dead_step alive peers pidx hplt
      (hdead pidx hplt (Nat.le_refl pidx) hlt)]
    rw [ih (pidx + 1) (by omega) (by omega) (fun j hj hge hji => hdead j hj (by omega) hji)]
    have h1 : i + 1 - pidx = (i + 1 - (pidx + 1)) + 1 := by omega
    rw [h1, List.range'_succ]

/-- Failover loop: whatever the probe outcomes, the probed indices form the contiguous
range starting at the current index, of length at most the number of remaining peers. -/
theorem trySendTransaction_probes_shape (alive : Peer → Bool) (peers : List Peer) :
    ∀ pidx, ∃ k, k ≤ peers.length - pidx ∧
      (trySendTransaction alive peers pidx).2.2 = List.range' pidx k := by
  suffices h : ∀ fuel pidx, peers.length - pidx = fuel → ∃ k, k ≤ peers.length - pidx ∧
      (trySendTransaction alive peers pidx).2.2 = List.range' pidx k by
    exact fun pidx => h _ pidx rfl
  intro fuel
  induction fuel with
  | zero =>
    intro pidx hk
    refine ⟨0, by omega, ?_⟩
    rw [trySendTransaction_exhausted alive peers pidx (by omega)]
    rfl
  | succ f ih =>
    intro pidx hk
    have hlt : pidx < peers.length := by omega
    by_cases ha : alive (peers.get ⟨pidx, hlt⟩) = true
    · refine ⟨1, by omega, ?_⟩
      rw [trySendTransaction_alive_step alive peers pidx hlt ha]
      rw [List.range'_one]
    · have ha2 : alive (peers.get ⟨pidx, hlt⟩) = false := by
        simpa using ha
      obtain ⟨k, hkle, hpr⟩ := ih (pidx + 1) (by omega)
      refine ⟨k + 1, by omega, ?_⟩
      rw [trySendTransaction_dead_step alive peers pidx hlt ha2]
      simp only [hpr]
      rw [List.range'_succ]

/-- C1: for every peer list, if the liveness probe succeeds for the peer at index i
(every earlier probe failing) and the peer list is not replaced concurrently — which in
this sequential embedding it never is — then sendTransaction forwards the transaction to
that peer and sets the chain's peer list to peers[i:] ++ peers[0:i] when i > 0, leaving
the order unchanged when i = 0. -/
theorem sendTransaction_failover_rotation (alive : Peer → Bool) (name : String)
    (peers : List Peer) (i : Nat) (hi : i < peers.length)
    (hdead : ∀ j (hj : j < peers.length), j < i → alive (peers.get ⟨j, hj⟩) = false)
    (halive : alive (peers.get ⟨i, hi⟩) = true) :
    sendTransaction alive name peers =
      (DispatchSignal.sent (peers.get ⟨i, hi⟩),
       if 0 < i then peers.drop i ++ peers.take i else peers,
       List.range' 0 (i + 1)) := by
  unfold sendTransaction
  have h0 : ¬ peers.length = 0 := by omega
  rw [if_neg h0]
  have h := trySendTransaction_first_alive alive peers i hi halive 0 (Nat.zero_le i)
    (fun j hj _ hji => hdead j hj hji)
  simpa using h

/-- C1 witness: with peers [P0, P1, P2] where only P1 accepts the probe, the transaction
goes to P1 and the resulting order is [P1, P2, P0]. -/
theorem sendTransaction_failover_rotation_witness :
    sendTransaction aliveOnlyB "testChain" [peerA, peerB, peerC] =
      (DispatchSignal.sent peerB, [peerB, peerC, peerA], [0, 1]) := by
  rw [sendTransaction_failover_rotation aliveOnlyB "testChain" [peerA, peerB, peerC] 1
    (by decide) (by decide) (by decide)]
  rfl

/-- C2: for every non-empty peer list on which every probe fails, sendTransaction emits
the single terminal error naming the number N of unresponsive peers, probes each index
exactly once, and leaves the peer list exactly as it was. -/
theorem sendTransaction_exhaustion (alive : Peer → Bool) (name : String)
    (peers : List Peer) (hne : peers ≠ [])
    (hdead : ∀ j (hj : j < peers.length), alive (peers.get ⟨j, hj⟩) = false) :
    sendTransaction alive name peers =
      (DispatchSignal.error ("None of " ++ toString peers.length ++ " peers reponding"),
       peers, List.range' 0 peers.length) := by
  unfold sendTransaction
  have h0 : ¬ peers.length = 0 := by
    simpa [List.length_eq_zero] using hne
  rw [if_neg h0]
  have h := trySendTransaction_all_dead alive peers 0 (fun j hj _ => hdead j hj)
  simpa using h

/-- C2 witness: with peers [P0, P1] both refusing the probe, the dispatch reports that
none of the 2 peers respond, probes indices 0 and 1 once each, and the order stays
[P0, P1]. -/
theorem sendTransaction_exhaustion_witness :
    sendTransaction (fun _ => false) "testChain" [peerA, peerB] =
      (DispatchSignal.error "None of 2 peers reponding", [peerA, peerB], [0, 1]) := by
  rw [sendTransaction_exhaustion (fun _ => false) "testChain" [peerA, peerB]
    (by decide) (by decide)]
  rfl

/-- C9: for every peer list, sendTransaction yields exactly one terminal signal (the
result type holds either one emitted error or one forwarded peer) and the indices it
probes are precisely an initial range 0, 1, ..., m-1 with m at most the list length —
each peer is probed at most once, at strictly increasing indices starting from 0; and on
the empty peer list the no-peers error is emitted with no probe at all. -/
theorem sendTransaction_probes_bounded (alive : Peer → Bool) (name : String)
    (peers : List Peer) :
    (∃ m, m ≤ peers.length ∧ (sendTransaction alive name peers).2.2 = List.range m) ∧
    sendTransaction alive name [] =
      (DispatchSignal.error ("chain " ++ name ++ " has no peers"), [], []) := by
  constructor
  · by_cases h0 : peers.length = 0
    · refine ⟨0, by omega, ?_⟩
      unfold sendTransaction
      rw [if_pos h0]
      rfl
    · obtain ⟨k, hk, hpr⟩ := trySendTransaction_probes_shape alive peers 0
      refine ⟨k, by omega, ?_⟩
      unfold sendTransaction
      rw [if_neg h0, hpr, List.range_eq_range']
  · rfl

/-- C3: evaluation at the failing input. On a freshly constructed chain no member
services is configured (the field holds its prototype default null), yet
isSecurityEnabled returns true, because the source tests `!== undefined` against a field
whose unset value is null. The claim says it must return false here. -/
theorem isSecurityEnabled_fresh_chain_true :
    Chain.isSecurityEnabled (mkChain "testChain") = true ∧
    (mkChain "testChain").memberServices = JSVal.null :=
  ⟨rfl, rfl⟩

/-- C4: evaluation at the failing input. On a configured chain, register against an
authority that denies the registration still resolves true — the source invokes
member.register without chaining its promise and resolves true immediately — and the
registration's failure survives only as the dropped deferred outcome, never through the
promise register returned. The claim says register resolves true only on success and
that the failure surfaces as a rejection. -/
theorem register_resolves_true_despite_failed_registration :
    (Chain.register chainConfigured authDeny ⟨"alice"⟩).1 = Except.ok true ∧
    (Chain.register chainConfigured authDeny ⟨"alice"⟩).2.2 =
      some (Except.error "PermissionError: registrar precondition failed") :=
  ⟨rfl, rfl⟩

/-- C5: evaluation at the failing input. Two separately constructed chains A and B start
with getPeers() = [] each; after addPeer on A (construction index 0), getPeers() on B
(construction index 1) also contains the new peer, because both instances read the one
`_peers` array on the shared prototype — the constructor re-creates `_members` per
instance but never `_peers`. The claim says B's list stays unchanged. -/
theorem addPeer_mutates_other_chain :
    ChainWorld.getPeers (ChainWorld.newChain (ChainWorld.newChain initialWorld "A") "B") 1
      = [] ∧
    ChainWorld.getPeers
      (ChainWorld.addPeer (ChainWorld.newChain (ChainWorld.newChain initialWorld "A") "B")
        0 "grpc://localhost:7051" "") 1 =
      [{ url := "grpc://localhost:7051", pem := "" }] :=
  ⟨rfl, rfl⟩

/-- C6: evaluation at the failing input. On a chain whose key-value store is set but
whose member services is unset, getMember does reject with the configuration error —
but the call is not fatal: the executor never returns after reject, so _getMemberHelper
still runs, a Member is constructed (the allocation counter advances), the store is
read, and the member is inserted into the cache. The claim says no construction, no
store access and no insertion happen. -/
theorem getMember_config_rejection_still_builds_member :
    (Chain.getMember (Chain.setKeyValueStore (mkChain "testChain") []) "alice").1 =
      Except.error "No member services was found.  You must first call Chain.configureMemberServices or Chain.setMemberServices" ∧
    (Chain.getMember (Chain.setKeyValueStore (mkChain "testChain") []) "alice").2.members "alice" =
      some { name := "alice", state := MemberState.unregistered, id := 0 } ∧
    (Chain.getMember (Chain.setKeyValueStore (mkChain "testChain") []) "alice").2.nextMemberId = 1 :=
  ⟨rfl, rfl, rfl⟩

/-- C7: registerAndEnroll on an identity that getMember resolves in state Enrolled
resolves to that identity, leaves the chain state exactly as getMember left it, and
never invokes the authority (third component false: the member's registerAndEnroll, and
with it the authority's register and enroll, are not called). -/
theorem registerAndEnroll_short_circuit (c : Chain) (auth : Authority)
    (req : RegistrationRequest) (m : Member)
    (h : (Chain.getMember c req.enrollmentID).1 = Except.ok m)
    (henr : Member.isEnrolled m = true) :
    Chain.registerAndEnroll c auth req =
      (Except.ok m, (Chain.getMember c req.enrollmentID).2, false) := by
  unfold Chain.registerAndEnroll
  simp [h, henr]

/-- C7 witness: on a configured chain whose cache holds the enrolled alice, calling
registerAndEnroll for alice against an authority that would deny every registration
resolves to that cached identity without any authority call. -/
theorem registerAndEnroll_short_circuit_witness :
    Chain.registerAndEnroll chainWithEnrolledAlice authDeny ⟨"alice"⟩ =
      (Except.ok enrolledAlice, chainWithEnrolledAlice, false) :=
  registerAndEnroll_short_circuit chainWithEnrolledAlice authDeny ⟨"alice"⟩ enrolledAlice
    rfl rfl

/-- C8: on a chain with store and member services configured, a successful
getMember(name) caches the resolved member, and an immediately repeated getMember(name)
resolves the very same member instance without changing the chain's state at all (in
particular no new member is constructed), the cache — a map — holding at most one member
per name by construction. -/
theorem getMember_cache_unique (c : Chain) (name : String) (m : Member)
    (hkv : JSVal.truthy c.keyValStore = true)
    (hms : JSVal.truthy c.memberServices = true)
    (h : (Chain.getMember c name).1 = Except.ok m) :
    Chain.getMember (Chain.getMember c name).2 name =
      (Except.ok m, (Chain.getMember c name).2) ∧
    (Chain.getMember c name).2.members name = some m := by
  unfold Chain.getMember Chain.getMemberHelper at h ⊢
  simp only [hkv, hms, Bool.true_eq_false, if_false] at h ⊢
  cases hmem : c.members name with
  | some member =>
    simp only [hmem] at h ⊢
    simp_all
  | none =>
    simp only [hmem] at h ⊢
    cases hre : Member.restoreState
        { name := name, state := MemberState.unregistered, id := c.nextMemberId }
        c.keyValStore with
    | ok restored =>
      simp only [hre] at h ⊢
      simp_all
    | error e =>
      simp only [hre] at h
      simp at h

/-- C8 witness: on the configured chain with an empty cache and empty store, the first
getMember("alice") resolves the freshly constructed member with allocation tag 0; the
repeated call resolves the same instance and leaves the state untouched. -/
theorem getMember_cache_unique_witness :
    Chain.getMember (Chain.getMember chainConfigured "alice").2 "alice" =
      (Except.ok { name := "alice", state := MemberState.unregistered, id := 0 },
       (Chain.getMember chainConfigured "alice").2) ∧
    (Chain.getMember chainConfigured "alice").2.members "alice" =
      some { name := "alice", state := MemberState.unregistered, id := 0 } :=
  getMember_cache_unique chainConfigured "alice"
    { name := "alice", state := MemberState.unregistered, id := 0 } rfl rfl rfl

/-- Writing a path and then looking it up finds the written value. -/
theorem lookup_write_same (fs : FileSystem) (p v : String) :
    List.lookup p (FileSystem.write fs p v) = some v := by
  induction fs with
  | nil =>
    simp [FileSystem.write, List.lookup]
  | cons hd tl ih =>
    obtain ⟨q, w⟩ := hd
    by_cases h : q = p
    · subst h
      simp [FileSystem.write, List.lookup]
    · have hne : (p == q) = false := beq_eq_false_iff_ne.mpr (Ne.symm h)
      simp [FileSystem.write, h, List.lookup, hne, ih]

/-- Writing one path leaves lookups of a different path unchanged. -/
theorem lookup_write_other (fs : FileSystem) (p q v : String) (h : q ≠ p) :
    List.lookup p (FileSystem.write fs q v) = List.lookup p fs := by
  have hpq : (p == q) = false := beq_eq_false_iff_ne.mpr (Ne.symm h)
  induction fs with
  | nil =>
    simp [FileSystem.write, List.lookup, hpq]
  | cons hd tl ih =>
    obtain ⟨r, w⟩ := hd
    by_cases hr : r = q
    · subst hr
      simp [FileSystem.write, List.lookup, hpq]
    · cases hpr : (p == r) <;>
        simp [FileSystem.write, hr, List.lookup, hpr, ih]

/-- Appending the same prefix to two strings preserves distinctness of the suffixes, so
two different key names give two different store paths under the same root. -/
theorem pathJoin_ne (dir a b : String) (h : a ≠ b) : pathJoin dir a ≠ pathJoin dir b := by
  intro hab
  apply h
  unfold pathJoin at hab
  have hd := congrArg String.data hab
  simp only [String.data_append] at hd
  exact congrArg String.mk (List.append_cancel_left hd)

/-- C10: the key-value store contract. On the empty file system a never-written key
resolves to null (not-found, not a rejection); setValue resolves true; a getValue after
setValue of the same key resolves the written value; and setValue of a different key
leaves getValue of this key unchanged — so a key no setValue ever targeted still
resolves to null. -/
theorem fileKeyValueStore_contract (s : FileKeyValueStore) (fs : FileSystem)
    (name value : String) :
    FileKeyValueStore.getValue s [] name = Except.ok none ∧
    (FileKeyValueStore.setValue s fs name value).1 = Except.ok true ∧
    FileKeyValueStore.getValue s (FileKeyValueStore.setValue s fs name value).2 name =
      Except.ok (some value) ∧
    (∀ other w, other ≠ name →
      FileKeyValueStore.getValue s (FileKeyValueStore.setValue s fs other w).2 name =
        FileKeyValueStore.getValue s fs name) := by
  refine ⟨rfl, rfl, ?_, ?_⟩
  · unfold FileKeyValueStore.getValue FileKeyValueStore.setValue
    rw [lookup_write_same]
  · intro other w hne
    unfold FileKeyValueStore.getValue FileKeyValueStore.setValue
    rw [lookup_write_other _ _ _ _ (pathJoin_ne s.dir other name hne)]

/-- C10 witness: concrete write/read round-trip and frame behaviour on the store rooted
at /tmp/kv. -/
theorem fileKeyValueStore_contract_witness :
    FileKeyValueStore.getValue ⟨"/tmp/kv"⟩
      (FileKeyValueStore.setValue ⟨"/tmp/kv"⟩ [] "key" "val").2 "key" =
      Except.ok (some "val") ∧
    FileKeyValueStore.getValue ⟨"/tmp/kv"⟩
      (FileKeyValueStore.setValue ⟨"/tmp/kv"⟩ [] "other" "w").2 "key" =
      FileKeyValueStore.getValue ⟨"/tmp/kv"⟩ [] "key" :=
  ⟨(fileKeyValueStore_contract ⟨"/tmp/kv"⟩ [] "key" "val").2.2.1,
   (fileKeyValueStore_contract ⟨"/tmp/kv"⟩ [] "key" "val").2.2.2 "other" "w" (by decide)⟩

end FabricSdk
